import Mathlib

/-!
Verification of the diff-highlighting pipeline (`src/main.rs`).

The program is a streaming post-processor for diff output.  We embed the
per-line processing loop of `fn delta` (lines 88-116 of `main.rs`), the
error handling of `fn main` (lines 63-73), and the configuration parsing
of `fn parse_args` (lines 120-157).

External collaborators (the ANSI stripper `strip_ansi_codes`, the
extension parser `parse_diff::get_file_extension_from_diff_line`, the
grammar catalog `syntax_set.find_syntax_by_extension`, and the painter
`paint::paint_line`) live outside the embedded core; the embedding is
parametric over them via the `Env` structure, exactly as the driver calls
them.
-/

/-- Rust's `str::starts_with(pat)` on the embedded lines: the pattern's
character sequence is a prefix of the string's character sequence.  Stated
on the character lists so that it evaluates on concrete inputs. -/
def strStartsWith (s pat : String) : Bool :=
  pat.data.isPrefixOf s.data

/-- The `State` enum of `main.rs` (lines 55-61): which logical section of a
diff the current line belongs to. -/
inductive State
  | Commit
  | DiffMeta
  | DiffHunk
  | Unknown
deriving DecidableEq, Repr

/-- The external collaborators consumed by the driver, parametric over the
grammar-handle type `G` (in the source, `&SyntaxReference`):
`strip` is `console::strip_ansi_codes`, `getFileExtensionFromDiffLine` is
`parse_diff::get_file_extension_from_diff_line`,
`findSyntaxByExtension` is `paint_config.syntax_set.find_syntax_by_extension`,
and `paintLine` is `paint::paint_line` with the run's fixed config. -/
structure Env (G : Type) where
  strip : String → String
  getFileExtensionFromDiffLine : String → Option String
  findSyntaxByExtension : String → Option G
  paintLine : String → G → String

/-- The driver's mutable per-run state (`main.rs` lines 83-85): the stored
grammar handle (`let mut syntax: Option<&SyntaxReference>`) and the current
section (`let mut state = State::Unknown`). -/
structure DState (G : Type) where
  grammar : Option G
  state : State

/-- The initial driver state: no grammar handle, section `Unknown`
(`main.rs` lines 83, 85). -/
def initDState {G : Type} : DState G :=
  { grammar := none, state := State.Unknown }

/-- Grammar re-resolution on a diff-header line (`main.rs` lines 94-97):
`match parse_diff::get_file_extension_from_diff_line(&line) {
  Some(extension) => paint_config.syntax_set.find_syntax_by_extension(extension),
  None => None }`. -/
def resolveGrammar {G : Type} (env : Env G) (line : String) : Option G :=
  match env.getFileExtensionFromDiffLine line with
  | some extension => env.findSyntaxByExtension extension
  | none => none

/-- One iteration of the `for _line in stdin.lock().lines()` loop body
(`main.rs` lines 89-115).  Returns the updated driver state, the list of
lines written by this iteration (each element is one `writeln!` call), and
the final value of the `did_emit_line` flag.  In the source,
`did_emit_line` starts false, is set true only in the painting branch
(line 108), and a trailing `if !did_emit_line { writeln!(stdout, raw_line) }`
(lines 113-115) writes the raw line in every other case; each branch here
lists exactly the lines that iteration writes under that rule. -/
def processLine {G : Type} (env : Env G) (st : DState G) (rawLine : String) :
    DState G × List String × Bool :=
  let line := env.strip rawLine
  if strStartsWith line "diff --" then
    ({ grammar := resolveGrammar env line, state := State.DiffMeta }, [rawLine], false)
  else if strStartsWith line "commit" then
    ({ grammar := st.grammar, state := State.Commit }, [rawLine], false)
  else if strStartsWith line "@@" then
    ({ grammar := st.grammar, state := State.DiffHunk }, [rawLine], false)
  else if st.state = State.DiffHunk then
    match st.grammar with
    | some g => (st, [env.paintLine line g], true)
    | none => (st, [rawLine], false)
  else (st, [rawLine], false)

/-- The driver state after processing one raw line. -/
def nextState {G : Type} (env : Env G) (st : DState G) (raw : String) : DState G :=
  (processLine env st raw).1

/-- The lines written while processing one raw line. -/
def lineOut {G : Type} (env : Env G) (st : DState G) (raw : String) : List String :=
  (processLine env st raw).2.1

/-- Whether the painter emitted the line (`did_emit_line` at `main.rs`
line 113). -/
def didEmit {G : Type} (env : Env G) (st : DState G) (raw : String) : Bool :=
  (processLine env st raw).2.2

/-- The whole per-line loop of `fn delta` (`main.rs` lines 88-116) on a
finite input: threads the driver state through the lines and concatenates
everything written. -/
def delta {G : Type} (env : Env G) : DState G → List String → List String
  | _, [] => []
  | st, raw :: rest => lineOut env st raw ++ delta env (nextState env st raw) rest

/-- The driver state observed just before each input line. -/
def statesAlong {G : Type} (env : Env G) : DState G → List String → List (DState G)
  | _, [] => []
  | st, raw :: rest => st :: statesAlong env (nextState env st raw) rest

/-- The driver state after processing all lines. -/
def finalState {G : Type} (env : Env G) (st : DState G) (lines : List String) :
    DState G :=
  lines.foldl (nextState env) st

/-- The Section Classifier as the spec states it (spec section 4.1):
`classify(current_section, line) -> new_section`, checked in priority
order; any non-matching line leaves the section unchanged.  Used to compare
the spec's classifier contract against the inlined transitions of the
driver loop. -/
def classify (s : State) (line : String) : State :=
  if strStartsWith line "diff --" then State.DiffMeta
  else if strStartsWith line "commit" then State.Commit
  else if strStartsWith line "@@" then State.DiffHunk
  else s

theorem processLine_diff {G : Type} (env : Env G) (st : DState G) (raw : String)
    (h1 : strStartsWith (env.strip raw) "diff --" = true) :
    processLine env st raw =
      ({ grammar := resolveGrammar env (env.strip raw), state := State.DiffMeta },
       [raw], false) := by
  unfold processLine
  simp [h1]

theorem processLine_commit {G : Type} (env : Env G) (st : DState G) (raw : String)
    (h1 : strStartsWith (env.strip raw) "diff --" = false)
    (h2 : strStartsWith (env.strip raw) "commit" = true) :
    processLine env st raw =
      ({ grammar := st.grammar, state := State.Commit }, [raw], false) := by
  unfold processLine
  simp [h1, h2]

theorem processLine_hunkHeader {G : Type} (env : Env G) (st : DState G) (raw : String)
    (h1 : strStartsWith (env.strip raw) "diff --" = false)
    (h2 : strStartsWith (env.strip raw) "commit" = false)
    (h3 : strStartsWith (env.strip raw) "@@" = true) :
    processLine env st raw =
      ({ grammar := st.grammar, state := State.DiffHunk }, [raw], false) := by
  unfold processLine
  simp [h1, h2, h3]

theorem processLine_paint {G : Type} (env : Env G) (st : DState G) (raw : String)
    (g : G)
    (h1 : strStartsWith (env.strip raw) "diff --" = false)
    (h2 : strStartsWith (env.strip raw) "commit" = false)
    (h3 : strStartsWith (env.strip raw) "@@" = false)
    (hs : st.state = State.DiffHunk)
    (hg : st.grammar = some g) :
    processLine env st raw = (st, [env.paintLine (env.strip raw) g], true) := by
  unfold processLine
  simp [h1, h2, h3, hs, hg]

theorem processLine_noGrammar {G : Type} (env : Env G) (st : DState G) (raw : String)
    (h1 : strStartsWith (env.strip raw) "diff --" = false)
    (h2 : strStartsWith (env.strip raw) "commit" = false)
    (h3 : strStartsWith (env.strip raw) "@@" = false)
    (hs : st.state = State.DiffHunk)
    (hg : st.grammar = none) :
    processLine env st raw = (st, [raw], false) := by
  unfold processLine
  simp [h1, h2, h3, hs, hg]

theorem processLine_other {G : Type} (env : Env G) (st : DState G) (raw : String)
    (h1 : strStartsWith (env.strip raw) "diff --" = false)
    (h2 : strStartsWith (env.strip raw) "commit" = false)
    (h3 : strStartsWith (env.strip raw) "@@" = false)
    (hs : st.state ≠ State.DiffHunk) :
    processLine env st raw = (st, [raw], false) := by
  unfold processLine
  simp [h1, h2, h3, hs]

theorem lineOut_singleton {G : Type} (env : Env G) (st : DState G) (raw : String) :
    ∃ o, lineOut env st raw = [o] := by
  unfold lineOut processLine
  dsimp only
  split
  · exact ⟨raw, rfl⟩
  · split
    · exact ⟨raw, rfl⟩
    · split
      · exact ⟨raw, rfl⟩
      · split
        · cases hg : st.grammar with
          | some g => exact ⟨env.paintLine (env.strip raw) g, by simp [hg]⟩
          | none => exact ⟨raw, by simp [hg]⟩
        · exact ⟨raw, rfl⟩

/-- C1: for every finite input stream of N lines, the pipeline driver emits
exactly N output lines, one per input line (the `flatten` of the per-line
outputs taken against the state stream), in the same order as the inputs. -/
theorem line_count_preservation {G : Type} (env : Env G) (st : DState G)
    (lines : List String) :
    (delta env st lines).length = lines.length ∧
    delta env st lines =
      (List.zipWith (lineOut env) (statesAlong env st lines) lines).flatten := by
  induction lines generalizing st with
  | nil => simp [delta, statesAlong]
  | cons raw rest ih =>
    obtain ⟨o, ho⟩ := lineOut_singleton env st raw
    refine ⟨?_, ?_⟩
    · simp [delta, ho, (ih (nextState env st raw)).1]
    · simp [delta, statesAlong, (ih (nextState env st raw)).2]

/-- C2: the painter runs (the `did_emit_line` flag is set) only when the
current section is `DiffHunk` and the stored grammar handle is resolved;
every other line is emitted byte-for-byte identical to its original raw
form, pre-existing color annotations included. -/
theorem painter_gating {G : Type} (env : Env G) (st : DState G) (raw : String) :
    (didEmit env st raw = true →
      st.state = State.DiffHunk ∧
      ∃ g, st.grammar = some g ∧
        lineOut env st raw = [env.paintLine (env.strip raw) g]) ∧
    (didEmit env st raw = false → lineOut env st raw = [raw]) := by
  cases h1 : strStartsWith (env.strip raw) "diff --" with
  | true => simp [didEmit, lineOut, processLine_diff env st raw h1]
  | false =>
  cases h2 : strStartsWith (env.strip raw) "commit" with
  | true => simp [didEmit, lineOut, processLine_commit env st raw h1 h2]
  | false =>
  cases h3 : strStartsWith (env.strip raw) "@@" with
  | true => simp [didEmit, lineOut, processLine_hunkHeader env st raw h1 h2 h3]
  | false =>
  by_cases hs : st.state = State.DiffHunk
  · cases hg : st.grammar with
    | some g =>
      simp [didEmit, lineOut, processLine_paint env st raw g h1 h2 h3 hs hg, hs, hg]
    | none => simp [didEmit, lineOut, processLine_noGrammar env st raw h1 h2 h3 hs hg]
  · simp [didEmit, lineOut, processLine_other env st raw h1 h2 h3 hs]

theorem nextState_grammar_of_not_diff {G : Type} (env : Env G) (st : DState G)
    (raw : String) (h1 : strStartsWith (env.strip raw) "diff --" = false) :
    (nextState env st raw).grammar = st.grammar := by
  cases h2 : strStartsWith (env.strip raw) "commit" with
  | true => simp [nextState, processLine_commit env st raw h1 h2]
  | false =>
  cases h3 : strStartsWith (env.strip raw) "@@" with
  | true => simp [nextState, processLine_hunkHeader env st raw h1 h2 h3]
  | false =>
  by_cases hs : st.state = State.DiffHunk
  · cases hg : st.grammar with
    | some g => simp [nextState, processLine_paint env st raw g h1 h2 h3 hs hg, hg]
    | none => simp [nextState, processLine_noGrammar env st raw h1 h2 h3 hs hg, hg]
  · simp [nextState, processLine_other env st raw h1 h2 h3 hs]

theorem finalState_cons {G : Type} (env : Env G) (st : DState G) (raw : String)
    (rest : List String) :
    finalState env st (raw :: rest) = finalState env (nextState env st raw) rest := by
  simp [finalState]

theorem finalState_grammar_of_no_diff {G : Type} (env : Env G) (st : DState G)
    (lines : List String)
    (h : ∀ l ∈ lines, strStartsWith (env.strip l) "diff --" = false) :
    (finalState env st lines).grammar = st.grammar := by
  induction lines generalizing st with
  | nil => rfl
  | cons a rest ih =>
    rw [finalState_cons]
    rw [ih (nextState env st a) (fun l hl => h l (List.mem_cons_of_mem a hl))]
    exact nextState_grammar_of_not_diff env st a (h a (List.mem_cons_self a rest))

theorem nextState_state_eq_classify {G : Type} (env : Env G) (st : DState G)
    (raw : String) :
    (nextState env st raw).state = classify st.state (env.strip raw) := by
  cases h1 : strStartsWith (env.strip raw) "diff --" with
  | true => simp [nextState, processLine_diff env st raw h1, classify, h1]
  | false =>
  cases h2 : strStartsWith (env.strip raw) "commit" with
  | true => simp [nextState, processLine_commit env st raw h1 h2, classify, h1, h2]
  | false =>
  cases h3 : strStartsWith (env.strip raw) "@@" with
  | true => simp [nextState, processLine_hunkHeader env st raw h1 h2 h3, classify, h1, h2, h3]
  | false =>
  by_cases hs : st.state = State.DiffHunk
  · cases hg : st.grammar with
    | some g =>
      simp [nextState, processLine_paint env st raw g h1 h2 h3 hs hg, classify, h1, h2, h3, hs]
    | none =>
      simp [nextState, processLine_noGrammar env st raw h1 h2 h3 hs hg, classify, h1, h2, h3, hs]
  · simp [nextState, processLine_other env st raw h1 h2 h3 hs, classify, h1, h2, h3]

/-- C3: the driver's inlined section transitions coincide with the spec's
classifier `classify(current_section, stripped_line)` checked in priority
order (`diff --` before `commit` before `@@`, anything else unchanged); the
initial section is `Unknown`; and a `diff --` line additionally triggers
re-resolution of the grammar handle from that line. -/
theorem classifier_contract {G : Type} (env : Env G) (st : DState G) (raw : String) :
    (nextState env st raw).state = classify st.state (env.strip raw) ∧
    (initDState (G := G)).state = State.Unknown ∧
    (strStartsWith (env.strip raw) "diff --" = true →
      (nextState env st raw).grammar = resolveGrammar env (env.strip raw)) := by
  refine ⟨nextState_state_eq_classify env st raw, rfl, fun h1 => ?_⟩
  simp [nextState, processLine_diff env st raw h1]

/-- C4: the grammar handle is reassigned only by `diff --` lines (to the
catalog lookup of the header's extension, `none` when the extension is
missing or unknown), and it is unchanged by every other line, so the value
set by one `diff --` line persists across any number of `@@` hunk
boundaries until the next `diff --` line. -/
theorem grammar_stickiness {G : Type} (env : Env G) :
    (∀ (st : DState G) (raw : String), strStartsWith (env.strip raw) "diff --" = true →
      (nextState env st raw).grammar = resolveGrammar env (env.strip raw)) ∧
    (∀ line, env.getFileExtensionFromDiffLine line = none →
      resolveGrammar env line = none) ∧
    (∀ (st : DState G) (lines : List String),
      (∀ l ∈ lines, strStartsWith (env.strip l) "diff --" = false) →
      (finalState env st lines).grammar = st.grammar) := by
  refine ⟨fun st raw h1 => ?_, fun line h => ?_, fun st lines h => ?_⟩
  · simp [nextState, processLine_diff env st raw h1]
  · simp [resolveGrammar, h]
  · exact finalState_grammar_of_no_diff env st lines h

theorem nextState_state_hunk_stable {G : Type} (env : Env G) (st : DState G)
    (raw : String) (hs : st.state = State.DiffHunk)
    (h1 : strStartsWith (env.strip raw) "diff --" = false)
    (h2 : strStartsWith (env.strip raw) "commit" = false) :
    (nextState env st raw).state = State.DiffHunk := by
  rw [nextState_state_eq_classify env st raw]
  unfold classify
  rw [h1, h2]
  simp [hs]

/-- C5: once the section is `DiffHunk`, it stays `DiffHunk`, both at every
intermediate line and at the end, for any run of lines none of which starts
(after ANSI stripping) with `diff --` or `commit`, regardless of their
content. -/
theorem section_stability {G : Type} (env : Env G) (st : DState G)
    (lines : List String) (hs : st.state = State.DiffHunk)
    (h : ∀ l ∈ lines, strStartsWith (env.strip l) "diff --" = false ∧
      strStartsWith (env.strip l) "commit" = false) :
    (∀ s ∈ statesAlong env st lines, s.state = State.DiffHunk) ∧
    (finalState env st lines).state = State.DiffHunk := by
  induction lines generalizing st with
  | nil => exact ⟨fun s hmem => absurd hmem (List.not_mem_nil s), hs⟩
  | cons a rest ih =>
    have ha := h a (List.mem_cons_self a rest)
    have hstep := nextState_state_hunk_stable env st a hs ha.1 ha.2
    have hrest := ih (nextState env st a) hstep
      (fun l hl => h l (List.mem_cons_of_mem a hl))
    refine ⟨fun s hmem => ?_, ?_⟩
    · rcases List.mem_cons.mp hmem with hcase | hcase
      · rw [hcase]; exact hs
      · exact hrest.1 s hcase
    · rw [finalState_cons]
      exact hrest.2

/-- C10: a line whose ANSI-stripped form starts with `diff --`, `commit`,
or `@@` takes one of the three classifier branches, so it is emitted
verbatim as its raw form and the painter is never invoked on it, whatever
the current section and grammar handle are. -/
theorem marker_lines_verbatim {G : Type} (env : Env G) (st : DState G)
    (raw : String)
    (h : strStartsWith (env.strip raw) "diff --" = true ∨
      strStartsWith (env.strip raw) "commit" = true ∨
      strStartsWith (env.strip raw) "@@" = true) :
    lineOut env st raw = [raw] ∧ didEmit env st raw = false := by
  cases h1 : strStartsWith (env.strip raw) "diff --" with
  | true => simp [lineOut, didEmit, processLine_diff env st raw h1]
  | false =>
  cases h2 : strStartsWith (env.strip raw) "commit" with
  | true => simp [lineOut, didEmit, processLine_commit env st raw h1 h2]
  | false =>
  cases h3 : strStartsWith (env.strip raw) "@@" with
  | true => simp [lineOut, didEmit, processLine_hunkHeader env st raw h1 h2 h3]
  | false => rcases h with h | h | h <;> simp_all

/-- C6 (amended): the painter runs on the ANSI-stripped line, and its
output replaces the raw line, exactly when the line matches none of the
three classifier prefixes while the section is already `DiffHunk` with a
resolved grammar handle.  (A line that itself matches a classifier prefix,
such as the `@@` line that transitions into `DiffHunk`, is emitted raw
instead; see the counterexample.) -/
theorem painter_invocation {G : Type} (env : Env G) (st : DState G) (g : G)
    (raw : String)
    (hs : st.state = State.DiffHunk) (hg : st.grammar = some g)
    (h1 : strStartsWith (env.strip raw) "diff --" = false)
    (h2 : strStartsWith (env.strip raw) "commit" = false)
    (h3 : strStartsWith (env.strip raw) "@@" = false) :
    lineOut env st raw = [env.paintLine (env.strip raw) g] ∧
    didEmit env st raw = true := by
  simp [lineOut, didEmit, processLine_paint env st raw g h1 h2 h3 hs hg]

/-- A concrete environment for exercising the pipeline: identity ANSI
stripper, an extension parser that answers `rs` on header lines, a
one-entry grammar catalog, and a painter that brackets its input with the
grammar name (so painted output is visibly different from the input). -/
def testEnv : Env String where
  strip := fun s => s
  getFileExtensionFromDiffLine := fun l =>
    if strStartsWith l "diff --" then some "rs" else none
  findSyntaxByExtension := fun e => if e = "rs" then some "rs" else none
  paintLine := fun l g => "[" ++ g ++ "]" ++ l

/-- A hunk-header line, as in the spec scenario. -/
def hunkHeaderLine : String := "@@ -1,1 +1,1 @@"

/-- The driver state right after a `diff --` header whose grammar resolved:
section `DiffMeta`, handle `some "rs"`. -/
def stAfterHeader : DState String :=
  { grammar := some "rs", state := State.DiffMeta }

/-- The driver state inside a hunk with a resolved grammar. -/
def paintingState : DState String :=
  { grammar := some "rs", state := State.DiffHunk }

/-- A hunk body line. -/
def codeLine : String := "let x = 1;"

/-- C6 counterexample: on the `@@` line that itself transitions the section
to `DiffHunk` while the grammar handle is resolved, the driver emits the
raw line and never invokes the painter, although the painted form would
differ; so painting does not happen for every line whose (possibly
just-updated) section is `DiffHunk` with a resolved grammar. -/
theorem painter_on_hunk_header_refuted :
    (nextState testEnv stAfterHeader hunkHeaderLine).state = State.DiffHunk ∧
    (nextState testEnv stAfterHeader hunkHeaderLine).grammar = some "rs" ∧
    lineOut testEnv stAfterHeader hunkHeaderLine = [hunkHeaderLine] ∧
    didEmit testEnv stAfterHeader hunkHeaderLine = false ∧
    testEnv.paintLine (testEnv.strip hunkHeaderLine) "rs" ≠ hunkHeaderLine := by
  refine ⟨?_, ?_, ?_, ?_, ?_⟩ <;> decide

/-- The error-kind distinction made by `fn main` (`main.rs` line 66-69):
`ErrorKind::BrokenPipe` against every other `io::Error` kind. -/
inductive IOErrorKind
  | brokenPipe
  | other
deriving DecidableEq, Repr

/-- An `io::Error` as observed by `fn main`: its kind and its display
text (what `eprintln!("{}", error)` would print). -/
structure IOError where
  kind : IOErrorKind
  msg : String
deriving DecidableEq, Repr

/-- What the process does after `delta()` returns: the messages printed to
stderr and the process exit status. -/
structure MainOutcome where
  stderrLines : List String
  exitCode : Nat
deriving DecidableEq, Repr

/-- `fn main` (`main.rs` lines 63-73): on `Err(e)` with kind `BrokenPipe`,
`process::exit(0)` silently; on any other `Err(e)`, `eprintln!("{}", e)` —
after which `main` falls through and returns normally, so the process exit
status is 0; on `Ok`, return normally with status 0. -/
def mainOutcome : Option IOError → MainOutcome
  | some e =>
    if e.kind = IOErrorKind.brokenPipe then { stderrLines := [], exitCode := 0 }
    else { stderrLines := [e.msg], exitCode := 0 }
  | none => { stderrLines := [], exitCode := 0 }

/-- A non-`BrokenPipe` I/O failure, e.g. a read error on stdin. -/
def readFailure : IOError :=
  { kind := IOErrorKind.other, msg := "Input/output error (os error 5)" }

/-- C7 counterexample: on an I/O failure other than a broken pipe, `main`
does print the error message, but then returns normally, so the process
terminates with exit status 0 — not with a non-zero status as claimed. -/
theorem nonzero_exit_on_io_error_refuted :
    (mainOutcome (some readFailure)).stderrLines = [readFailure.msg] ∧
    (mainOutcome (some readFailure)).exitCode = 0 := by
  refine ⟨?_, ?_⟩ <;> decide

/-- C7 (amended): an I/O failure other than a broken pipe is surfaced as a
visible error message on stderr, and the process then terminates — but
with exit status 0, because `main` merely prints the error and returns. -/
theorem other_io_error_reported (e : IOError)
    (h : e.kind ≠ IOErrorKind.brokenPipe) :
    mainOutcome (some e) = { stderrLines := [e.msg], exitCode := 0 } := by
  simp [mainOutcome, h]

/-- The `BrokenPipe` error produced when the consumer has closed stdout. -/
def brokenPipeError : IOError :=
  { kind := IOErrorKind.brokenPipe, msg := "Broken pipe (os error 32)" }

/-- A model of one `writeln!(stdout, ...)` against a consumer that accepts
exactly `cap` lines and then closes the pipe: the write succeeds while
fewer than `cap` lines have been written so far (`w` counts them) and
fails with `BrokenPipe` from then on. -/
def writeSink (cap w : Nat) : Except IOError Nat :=
  if w < cap then Except.ok (w + 1) else Except.error brokenPipeError

/-- Writes a list of lines through `writeSink` one at a time, stopping at
the first failure. -/
def writeAll (cap : Nat) : Nat → List String → Except IOError Nat
  | w, [] => Except.ok w
  | w, _ :: rest =>
    match writeSink cap w with
    | Except.ok w2 => writeAll cap w2 rest
    | Except.error e => Except.error e

/-- `fn delta`'s loop with fallible writes (`main.rs` lines 88-116 with the
`?` on each `writeln!`): each written line goes through `writeSink`, and
the first failing write aborts the loop, returning the error.  The result
is the list of lines actually written and the loop's `io::Result`. -/
def deltaWrites {G : Type} (env : Env G) (cap : Nat) :
    DState G → Nat → List String → List String × Except IOError Unit
  | _, _, [] => ([], Except.ok ())
  | st, w, raw :: rest =>
    match writeAll cap w (lineOut env st raw) with
    | Except.ok w2 =>
      let r := deltaWrites env cap (nextState env st raw) w2 rest
      (lineOut env st raw ++ r.1, r.2)
    | Except.error e => ((lineOut env st raw).take (cap - w), Except.error e)

theorem deltaWrites_ok {G : Type} (env : Env G) (cap : Nat) (st : DState G)
    (w : Nat) (lines : List String) (h : w + lines.length ≤ cap) :
    deltaWrites env cap st w lines = (delta env st lines, Except.ok ()) := by
  induction lines generalizing st w with
  | nil => simp [deltaWrites, delta]
  | cons raw rest ih =>
    obtain ⟨o, ho⟩ := lineOut_singleton env st raw
    have hw : w < cap := by
      have := h
      simp [List.length_cons] at this
      omega
    have hrec := ih (nextState env st raw) (w + 1) (by
      simp [List.length_cons] at h
      omega)
    simp [deltaWrites, delta, ho, writeAll, writeSink, hw, hrec]

theorem deltaWrites_brokenPipe {G : Type} (env : Env G) (cap : Nat) (st : DState G)
    (w : Nat) (lines : List String) (hw : w ≤ cap)
    (h : cap < w + lines.length) :
    (deltaWrites env cap st w lines).2 = Except.error brokenPipeError ∧
    (deltaWrites env cap st w lines).1 = (delta env st lines).take (cap - w) := by
  induction lines generalizing st w with
  | nil =>
    exfalso
    simp at h
    omega
  | cons raw rest ih =>
    obtain ⟨o, ho⟩ := lineOut_singleton env st raw
    by_cases hwc : w < cap
    · have hrec := ih (nextState env st raw) (w + 1) (by omega) (by
        simp [List.length_cons] at h
        omega)
      refine ⟨?_, ?_⟩
      · simp [deltaWrites, ho, writeAll, writeSink, hwc, hrec.1]
      · rw [show cap - w = (cap - (w + 1)) + 1 by omega]
        simp [deltaWrites, delta, ho, writeAll, writeSink, hwc, hrec.2]
    · have hweq : w = cap := by omega
      refine ⟨?_, ?_⟩
      · simp [deltaWrites, ho, writeAll, writeSink, hwc]
      · simp [deltaWrites, delta, ho, writeAll, writeSink, hwc, hweq]

/-- C8: when the consumer closes the output after accepting `cap` of the
output lines (fewer than the input has), the loop's first failing write
returns `BrokenPipe`, processing stops with only the first `cap` lines
written, and `main` turns the error into a silent exit with status 0;
the input stream ending normally terminates the loop cleanly with `Ok`. -/
theorem broken_pipe_silent_exit {G : Type} (env : Env G) (lines : List String)
    (cap : Nat) (h : cap < lines.length) :
    (deltaWrites env cap initDState 0 lines).2 = Except.error brokenPipeError ∧
    (deltaWrites env cap initDState 0 lines).1 =
      (delta env initDState lines).take cap ∧
    mainOutcome (some brokenPipeError) = { stderrLines := [], exitCode := 0 } ∧
    (∀ (st : DState G) (w : Nat), deltaWrites env cap st w [] = ([], Except.ok ())) := by
  have hmain := deltaWrites_brokenPipe env cap initDState 0 lines (Nat.zero_le cap)
    (by omega)
  refine ⟨hmain.1, by simpa using hmain.2, by decide, fun st w => rfl⟩

/-- The command-line options of `main.rs` (struct `Opt`, lines 15-53). -/
structure Opt where
  light : Bool
  dark : Bool
  plusColor : Option String
  minusColor : Option String
  theme : Option String
  width : Option Nat

/-- Modelled from the spec: `paint::get_config` lives in `paint.rs`, which
is outside the embedded core.  Per the spec's RenderConfig it immutably
bundles the resolved theme, the parsed overlay color overrides and the
optional display width for every painter invocation (`C` is syntect's
`Color`). -/
structure PaintConfig (C : Type) where
  themeName : String
  plusColor : Option C
  minusColor : Option C
  width : Option Nat

/-- `fn parse_args` (`main.rs` lines 120-157), parametric over the theme
catalog (the key set of `theme_set.themes`) and the external RGB parser
(`Color::from_str`, with `.ok()` turning its result into an option).
`eprintln!` followed by `process::exit(1)` is modelled as
`Except.error (message, 1)`: the message printed and the exit status. -/
def parse_args {C : Type} (themeNames : List String)
    (colorFromStr : String → Option C) (opt : Opt) :
    Except (String × Nat) (PaintConfig C) :=
  if opt.light && opt.dark then
    Except.error ("--light or --dark cannot be used together. Default is --light.", 1)
  else
    match opt.theme with
    | some theme =>
      if themeNames.contains theme then
        Except.ok
          { themeName := theme
            plusColor := opt.plusColor.bind colorFromStr
            minusColor := opt.minusColor.bind colorFromStr
            width := opt.width }
      else Except.error ("Invalid theme: " ++ theme, 1)
    | none =>
      let opt2 := if !(opt.light || opt.dark) then { opt with light := true } else opt
      Except.ok
        { themeName := if opt2.light then "InspiredGitHub" else "base16-mocha.dark"
          plusColor := opt2.plusColor.bind colorFromStr
          minusColor := opt2.minusColor.bind colorFromStr
          width := opt2.width }

/-- `fn delta` end to end (`main.rs` lines 75-118): resolve the
configuration first — a configuration error terminates the process before
any input line is read — and only then run the per-line loop over the
input. -/
def deltaProgram {C G : Type} (themeNames : List String)
    (colorFromStr : String → Option C) (opt : Opt) (env : Env G)
    (lines : List String) : Except (String × Nat) (List String) :=
  match parse_args themeNames colorFromStr opt with
  | Except.error e => Except.error e
  | Except.ok _ => Except.ok (delta env initDState lines)

/-- C9: setting both the light-mode and dark-mode flags, or naming a theme
outside the catalog, aborts with a message and exit status 1 before any
input line is processed (the program produces an error, never an output
list); every configuration error carries a non-zero status; and a
plus/minus color override that fails to parse degrades to no override in
the resulting configuration instead of aborting. -/
theorem config_error_handling {C G : Type} (themeNames : List String)
    (colorFromStr : String → Option C) (opt : Opt) (env : Env G)
    (lines : List String) :
    (opt.light = true → opt.dark = true →
      deltaProgram themeNames colorFromStr opt env lines =
        Except.error
          ("--light or --dark cannot be used together. Default is --light.", 1)) ∧
    (∀ t, opt.theme = some t → themeNames.contains t = false →
      (opt.light && opt.dark) = false →
      deltaProgram themeNames colorFromStr opt env lines =
        Except.error ("Invalid theme: " ++ t, 1)) ∧
    (∀ e, parse_args themeNames colorFromStr opt = Except.error e → e.2 ≠ 0) ∧
    (∀ s cfg, opt.plusColor = some s → colorFromStr s = none →
      parse_args themeNames colorFromStr opt = Except.ok cfg →
      cfg.plusColor = none) ∧
    (∀ s cfg, opt.minusColor = some s → colorFromStr s = none →
      parse_args themeNames colorFromStr opt = Except.ok cfg →
      cfg.minusColor = none) ∧
    (∀ e, parse_args themeNames colorFromStr opt = Except.error e →
      (opt.light && opt.dark) = true ∨
      ∃ t, opt.theme = some t ∧ themeNames.contains t = false) := by
  refine ⟨?_, ?_, ?_, ?_, ?_, ?_⟩
  · intro hl hd
    simp [deltaProgram, parse_args, hl, hd]
  · intro t ht hcontains hld
    simp at hcontains
    simp [deltaProgram, parse_args, hld, ht, hcontains]
  · intro e he
    unfold parse_args at he
    split at he
    · rw [← Except.error.inj he]
      simp
    · split at he
      · split at he
        · exact absurd he (by simp)
        · rw [← Except.error.inj he]
          simp
      · exact absurd he (by simp)
  · intro s cfg hplus hparse hok
    unfold parse_args at hok
    split at hok
    · exact absurd hok (by simp)
    · split at hok
      · split at hok
        · have := Except.ok.inj hok
          simp [← this, hplus, hparse]
        · exact absurd hok (by simp)
      · have := Except.ok.inj hok
        by_cases hcase : !(opt.light || opt.dark)
        · simp [hcase] at this
          simp [← this, hplus, hparse]
        · simp [hcase] at this
          simp [← this, hplus, hparse]
  · intro s cfg hminus hparse hok
    unfold parse_args at hok
    split at hok
    · exact absurd hok (by simp)
    · split at hok
      · split at hok
        · have := Except.ok.inj hok
          simp [← this, hminus, hparse]
        · exact absurd hok (by simp)
      · have := Except.ok.inj hok
        by_cases hcase : !(opt.light || opt.dark)
        · simp [hcase] at this
          simp [← this, hminus, hparse]
        · simp [hcase] at this
          simp [← this, hminus, hparse]
  · intro e he
    unfold parse_args at he
    split at he
    · left
      assumption
    · cases htheme : opt.theme with
      | none =>
        rw [htheme] at he
        exact absurd he (by simp)
      | some t =>
        rw [htheme] at he
        right
        refine ⟨t, rfl, ?_⟩
        cases hc : themeNames.contains t with
        | true =>
          simp at hc
          simp [hc] at he
        | false => rfl

/-- A well-formed diff header line. -/
def diffHeaderLine : String := "diff --git a/x.rs b/x.rs"

/-- An option record with both exclusive mode flags set. -/
def conflictingOpt : Opt :=
  { light := true, dark := true, plusColor := none, minusColor := none,
    theme := none, width := none }

/-- Witness for `painter_gating`: at a hunk body line inside a resolved
`DiffHunk` section, the painter branch fires. -/
theorem painter_gating_witness :
    paintingState.state = State.DiffHunk ∧
    ∃ g, paintingState.grammar = some g ∧
      lineOut testEnv paintingState codeLine =
        [testEnv.paintLine (testEnv.strip codeLine) g] :=
  (painter_gating testEnv paintingState codeLine).1 (by decide)

/-- Witness for `classifier_contract`: a `diff --` header re-resolves the
grammar handle. -/
theorem classifier_contract_witness :
    (nextState testEnv initDState diffHeaderLine).grammar =
      resolveGrammar testEnv (testEnv.strip diffHeaderLine) :=
  (classifier_contract testEnv initDState diffHeaderLine).2.2 (by decide)

/-- Witness for `grammar_stickiness`: the handle survives a hunk boundary
and a body line. -/
theorem grammar_stickiness_witness :
    (finalState testEnv paintingState ["@@ -2,1 +2,1 @@", "+let y = 3;"]).grammar =
      paintingState.grammar :=
  (grammar_stickiness testEnv).2.2 paintingState ["@@ -2,1 +2,1 @@", "+let y = 3;"]
    (by decide)

/-- Witness for `section_stability`: the section stays `DiffHunk` across a
body line and another hunk header. -/
theorem section_stability_witness :
    (finalState testEnv paintingState ["+let y = 3;", "@@ -2,1 +2,1 @@"]).state =
      State.DiffHunk :=
  (section_stability testEnv paintingState ["+let y = 3;", "@@ -2,1 +2,1 @@"]
    (by decide) (by decide)).2

/-- Witness for `painter_invocation`: a hunk body line is painted. -/
theorem painter_invocation_witness :
    lineOut testEnv paintingState codeLine =
      [testEnv.paintLine (testEnv.strip codeLine) "rs"] ∧
    didEmit testEnv paintingState codeLine = true :=
  painter_invocation testEnv paintingState "rs" codeLine (by decide) (by decide)
    (by decide) (by decide) (by decide)

/-- Witness for `other_io_error_reported` at a concrete read failure. -/
theorem other_io_error_reported_witness :
    mainOutcome (some readFailure) =
      { stderrLines := [readFailure.msg], exitCode := 0 } :=
  other_io_error_reported readFailure (by decide)

/-- Witness for `broken_pipe_silent_exit`: two input lines against a
consumer that accepts one. -/
theorem broken_pipe_silent_exit_witness :
    (deltaWrites testEnv 1 initDState 0 ["context a", "context b"]).2 =
      Except.error brokenPipeError :=
  (broken_pipe_silent_exit testEnv ["context a", "context b"] 1 (by decide)).1

/-- Witness for `config_error_handling`: conflicting mode flags abort. -/
theorem config_error_handling_witness :
    deltaProgram ["InspiredGitHub"] (fun _ => (none : Option Unit)) conflictingOpt
      testEnv ["+x"] =
      Except.error
        ("--light or --dark cannot be used together. Default is --light.", 1) :=
  (config_error_handling ["InspiredGitHub"] (fun _ => (none : Option Unit))
    conflictingOpt testEnv ["+x"]).1 rfl rfl

/-- Witness for `marker_lines_verbatim`: a hunk header passes through raw
even inside a painted hunk. -/
theorem marker_lines_verbatim_witness :
    lineOut testEnv paintingState hunkHeaderLine = [hunkHeaderLine] ∧
    didEmit testEnv paintingState hunkHeaderLine = false :=
  marker_lines_verbatim testEnv paintingState hunkHeaderLine
    (Or.inr (Or.inr (by decide)))
